import Mathlib

/-!
# Missile attack game: the missile step, the shield and the shared screen

A verification development for `thread.c` and `threads.c`.

The C code keeps no grid of its own: it reads and writes the curses screen
(`mvinch`, `mvaddch`, `clrtoeol`, `addstr`).  The screen is embedded as a window
of `rows` by `cols` cells, each holding a glyph.  As in curses, a write to a
position outside the window is refused and changes nothing, and a read outside
the window returns the error value.  Rows and columns are C `int`s, embedded as
`Int` (signed overflow is undefined in C and does not occur for screen
coordinates).
The file-level variables of `thread.c` (`ground`, `height`, `columns`, the
flags and the defender name) are gathered in `Globals` and passed explicitly.
The mutex and the sleeps of `advance` and `advanceShield` do not change the
values computed inside the critical section; what is embedded is that section.
-/

namespace Threads

/-! ## The screen -/

/-- The curses screen `stdscr`: a window of `rows` lines (rows 0 to rows - 1)
and `cols` columns, and the glyph shown in each cell.  Only the cells inside
the window are ever read. -/
structure Board where
  rows : Int
  cols : Int
  cells : Int → Int → Char

/-- Whether the position (y, x) lies inside the window. -/
def Board.inWindow (b : Board) (y x : Int) : Bool :=
  decide (0 ≤ y ∧ y < b.rows ∧ 0 ≤ x ∧ x < b.cols)

/-- The curses error value `ERR` (-1) narrowed to `char`: the byte 255. -/
def errGlyph : Char := Char.ofNat 255

/-- Curses `mvaddch(y, x, ch)`: put glyph `ch` in the cell (y, x).  Outside the
window the move fails and nothing is written. -/
def mvaddch (b : Board) (y x : Int) (ch : Char) : Board :=
  if b.inWindow y x = true then
    { b with cells := fun r c => if r = y ∧ c = x then ch else b.cells r c }
  else b

/-- Curses `mvinch(y, x)` narrowed to `char`: the glyph of the cell (y, x), or
the error value when (y, x) is outside the window. -/
def mvinch (b : Board) (y x : Int) : Char :=
  if b.inWindow y x = true then b.cells y x else errGlyph

/-- Curses `move(y, x); clrtoeol()`: blank row `y` from column `x` on.  When
(y, x) is outside the window the move fails; what `clrtoeol` then clears
depends on the cursor, which is not embedded, and the screen is left as it is. -/
def clrtoeol (b : Board) (y x : Int) : Board :=
  if b.inWindow y x = true then
    { b with cells := fun r c => if r = y ∧ x ≤ c then ' ' else b.cells r c }
  else b

/-- Curses `move(y, x); addstr(s)`: write the glyphs of `s` from (y, x)
rightwards; at the right margin the text continues at the start of the next
row, and it stops after the cell in the bottom right corner.  When (y, x) is
outside the window the move fails; where `addstr` then writes depends on the
cursor, which is not embedded, and the screen is left as it is. -/
def addstr (b : Board) (y x : Int) : List Char → Board
  | [] => b
  | ch :: rest =>
    if b.inWindow y x = true then
      if x + 1 < b.cols then addstr (mvaddch b y x ch) y (x + 1) rest
      else if y + 1 < b.rows then addstr (mvaddch b y x ch) (y + 1) 0 rest
      else mvaddch b y x ch
    else b

/-! ## Data model (`threads.h`) and file-level state (`thread.c`) -/

/-- The `struct Missile_S` of `threads.h`. -/
structure Missile where
  height : Int
  column : Int
  graphic : Char
  delay : Int
  exploded : Bool
  deriving DecidableEq

/-- The `struct Shield_S` of `threads.h`. -/
structure Shield where
  row : Int
  column : Int
  graphic : String
  deriving DecidableEq

/-- The file-level variables of `thread.c` that `initThreads` sets. -/
structure Globals where
  ground : Int
  height : Int
  columns : Int
  shieldLock : Bool
  quit : Bool
  game : Bool
  endless : Bool
  defenseForce : String
  deriving DecidableEq

/-- The function `initThreads` of `thread.c`. -/
def initThreads (groundHeight buildingHeight maxColumn : Int) (defense : String)
    (endlessAttack : Bool) : Globals :=
  { ground := groundHeight
    height := groundHeight - buildingHeight - 2
    columns := maxColumn
    game := true
    endless := endlessAttack
    shieldLock := false
    quit := false
    defenseForce := defense }

/-- The function `createMissile` of `thread.c` (the allocation succeeds). -/
def createMissile (column delay : Int) : Missile :=
  { height := 6, column := column, graphic := '|', exploded := false, delay := delay }

/-- The function `createShield` of `thread.c` (the allocation succeeds). -/
def createShield (g : Globals) (column : Int) : Shield :=
  { row := g.height, column := column, graphic := "#####" }

/-! ## Drawing and the missile step (`thread.c`) -/

/-- The function `eraseMissile`. -/
def eraseMissile (b : Board) (m : Missile) : Board :=
  mvaddch b m.height m.column ' '

/-- The function `drawMissile`. -/
def drawMissile (b : Board) (m : Missile) : Board :=
  mvaddch b m.height m.column m.graphic

/-- The function `explode`: set the flag, mark the cell and the cell below it. -/
def explode (b : Board) (m : Missile) : Board × Missile :=
  let m1 : Missile := { m with exploded := true }
  let b1 := mvaddch b m1.height m1.column '?'
  let b2 := mvaddch b1 (m1.height + 1) m1.column '*'
  (b2, m1)

/-- The branch of `advance` on the glyph `next` read below the missile. -/
def resolve (g : Globals) (b : Board) (m : Missile) (next : Char) : Board × Missile :=
  if next = '_' ∨ next = '|' then
    explode b { m with height := m.height + 1 }
  else if next = '#' then
    explode b m
  else if next = '?' then
    if m.height + 2 = g.height ∨ m.height + 1 = g.ground then
      explode b { m with height := m.height + 1 }
    else
      let m1 : Missile := { m with height := m.height + 1 }
      let b1 := eraseMissile b m1
      explode b1 { m1 with height := m1.height + 1 }
  else
    (b, { m with height := m.height + 1 })

/-- The function `advance`: one step of a missile on the screen. -/
def advance (g : Globals) (b : Board) (m : Missile) : Board × Missile :=
  let b0 := eraseMissile b m
  let next := mvinch b0 (m.height + 1) m.column
  let s1 := resolve g b0 m next
  let s2 := if s1.2.height ≥ g.ground then explode s1.1 s1.2 else s1
  let b3 := if s2.2.exploded = false then drawMissile s2.1 s2.2 else s2.1
  (b3, s2.2)

/-! ## The shield (`thread.c`) -/

/-- The function `eraseShield`: blank the shield row from the shield column on. -/
def eraseShield (b : Board) (s : Shield) : Board :=
  clrtoeol b s.row s.column

/-- The function `drawShield`. -/
def drawShield (b : Board) (s : Shield) : Board :=
  addstr b s.row s.column s.graphic.toList

/-- The function `advanceShield`: one move of the shield, `left = true` for a
move to the left and `left = false` for a move to the right. -/
def advanceShield (g : Globals) (b : Board) (s : Shield) (left : Bool) :
    Globals × Board × Shield :=
  let g1 : Globals := { g with shieldLock := true }
  let b1 := eraseShield b s
  let s1 : Shield :=
    if left = true then
      (if s.column > 0 then { s with column := s.column - 1 } else s)
    else
      (if s.column < g1.columns then { s with column := s.column + 1 } else s)
  let b2 := drawShield b1 s1
  ({ g1 with shieldLock := false }, b2, s1)

/-- Successive calls of `advanceShield`, one per arrow-key event, as the loop
of `runShield` makes them (`true` for KEY_LEFT, `false` for KEY_RIGHT). -/
def runMoves (g : Globals) (b : Board) (s : Shield) : List Bool → Globals × Board × Shield
  | [] => (g, b, s)
  | left :: rest =>
    let r := advanceShield g b s left
    runMoves r.1 r.2.1 r.2.2 rest

/-! ## Reuse of missiles (`thread.c`, `threads.c`) -/

/-- The function `resetMissile`; `r` is the value `rand()` returns.  The C
expression `rand() % columns + 1` divides by `columns`: with `columns == 0` the
division is undefined (the process is killed), which is the result `none`. -/
def resetMissile (g : Globals) (m : Missile) (r : Int) : Option Missile :=
  if g.columns = 0 then none
  else some { m with height := 6, column := Int.tmod r g.columns + 1, exploded := false }

/-- The function `restartAttack` of `threads.c`: reset every missile of the
pool in order; `rand i` is the value returned by the i-th call of `rand()`. -/
def restartAttack (g : Globals) (rand : Nat → Int) : List Missile → Option (List Missile)
  | [] => some []
  | m :: rest =>
    match resetMissile g m (rand 0) with
    | none => none
    | some m1 =>
      match restartAttack g (fun i => rand (i + 1)) rest with
      | none => none
      | some rest1 => some (m1 :: rest1)

/-! ## Set-up of the defender by `main` (`threads.c`) -/

/-- Lines 206 to 212 of `main`: the mode flag, `initThreads` and `createShield`.
The argument `column` is the number of building heights read from the
configuration (a `size_t`), `maxHeight` the number of screen rows. -/
def mainSetup (maxHeight tallestBuilding : Int) (column missileCount : Nat)
    (defenseForce : String) : Globals × Shield :=
  let endless : Bool := if missileCount = 0 then true else false
  let g := initThreads (maxHeight - 2) tallestBuilding (column : Int) defenseForce endless
  (g, createShield g ((column / 2 + 3 : Nat) : Int))

/-! ## Lock discipline: the screen and mutex operations each thread performs

Each function that touches the screen is also embedded as the sequence of
mutex, screen and thread operations it performs, in program order.  The audit
below replays such a sequence for one thread and stops at the first screen
operation that thread performs without holding the mutex `lock` while a runner
thread exists. -/

/-- The operations of interest. -/
inductive Op where
  /-- Call `pthread_mutex_lock(&lock)`. -/
  | lock
  /-- Call `pthread_mutex_unlock(&lock)`. -/
  | unlock
  /-- Screen write: `mvaddch`, `addstr`, `clrtoeol`, `mvprintw`. -/
  | write
  /-- Screen read: `mvinch`. -/
  | read
  /-- Screen commit: `refresh`. -/
  | commit
  /-- Keyboard read: `getch`. -/
  | input
  /-- Call `pthread_create`. -/
  | create
  /-- Call `pthread_join`. -/
  | join
  /-- Store to one of the shared flags (`shieldLock`, `quit`, `game`). -/
  | flag
  deriving DecidableEq

/-- Whether the operation reads, writes or commits the screen. -/
def Op.onBoard : Op → Bool
  | Op.write => true
  | Op.read => true
  | Op.commit => true
  | _ => false

/-- Operations of `explode`: the two `mvaddch` calls. -/
def explodeOps : List Op := [Op.write, Op.write]

/-- Operations of the branch of `advance` on the glyph read (see `resolve`). -/
def resolveOps (g : Globals) (m : Missile) (next : Char) : List Op :=
  if next = '_' ∨ next = '|' then explodeOps
  else if next = '#' then explodeOps
  else if next = '?' then
    if m.height + 2 = g.height ∨ m.height + 1 = g.ground then explodeOps
    else Op.write :: explodeOps
  else []

/-- Operations of `advance`, from `pthread_mutex_lock` to `pthread_mutex_unlock`. -/
def advanceOps (g : Globals) (b : Board) (m : Missile) : List Op :=
  let b0 := eraseMissile b m
  let next := mvinch b0 (m.height + 1) m.column
  let s1 := resolve g b0 m next
  let s2 := if s1.2.height ≥ g.ground then explode s1.1 s1.2 else s1
  [Op.lock, Op.write, Op.read] ++ resolveOps g m next
    ++ (if s1.2.height ≥ g.ground then explodeOps else [])
    ++ (if s2.2.exploded = false then [Op.write] else [])
    ++ [Op.commit, Op.unlock]

/-- Operations of `advanceShield` (the same for both directions). -/
def advanceShieldOps : List Op :=
  [Op.flag, Op.lock, Op.write, Op.write, Op.commit, Op.unlock, Op.flag]

/-- The curses key code KEY_LEFT (octal 0404). -/
def KEY_LEFT : Int := 260

/-- The curses key code KEY_RIGHT (octal 0405). -/
def KEY_RIGHT : Int := 261

/-- Operations of one turn of the input loop of `runShield` on the key `ch`. -/
def keyOps (ch : Int) : List Op :=
  Op.input ::
    (if ch = KEY_LEFT then advanceShieldOps
     else if ch = KEY_RIGHT then advanceShieldOps
     else if ch = 63 then [Op.flag]
     else [])

/-- Operations of `runShield`: the banner and the shield drawn under the lock,
the input loop on the keys `keys`, the two closing messages, and one `getch`
per key of `drain` in the closing loop. -/
def runShieldOps (keys drain : List Int) : List Op :=
  [Op.lock, Op.write, Op.write, Op.commit, Op.unlock]
    ++ keys.flatMap keyOps
    ++ [Op.write, Op.write]
    ++ drain.map (fun _ => Op.input)

/-- Operations of `main` from `initscr` on, for a configuration with
`missileCount > 0` missiles: `cityWrites` calls of `mvaddch` draw the city,
then `refresh` and `getch`; the shield thread and the missile threads are
created, the missile threads joined, the closing message is printed and
committed, `endGame` clears `game`, and the shield thread is joined. -/
def mainOps (cityWrites missileCount : Nat) : List Op :=
  List.replicate cityWrites Op.write ++ [Op.commit, Op.input]
    ++ [Op.create]
    ++ List.replicate missileCount Op.create
    ++ List.replicate missileCount Op.join
    ++ [Op.write, Op.commit, Op.flag, Op.join]

/-- One operation of the audit.  The state is whether this thread holds `lock`
and how many runner threads exist: for a runner, itself; for `main`, the
threads created and not yet joined.  The result is `none` when the operation
touches the screen without the lock while a runner exists. -/
def auditStep (st : Bool × Nat) (op : Op) : Option (Bool × Nat) :=
  match op with
  | Op.lock => some (true, st.2)
  | Op.unlock => some (false, st.2)
  | Op.create => some (st.1, st.2 + 1)
  | Op.join => some (st.1, st.2 - 1)
  | _ => if op.onBoard = true ∧ 0 < st.2 ∧ st.1 = false then none else some st

/-- Replay a sequence of operations; `none` when some screen operation is not
covered by the lock. -/
def audit (st : Bool × Nat) : List Op → Option (Bool × Nat)
  | [] => some st
  | op :: rest =>
    match auditStep st op with
    | none => none
    | some st1 => audit st1 rest

/-! ## The missile thread (`thread.c`) -/

/-- The loop `while (missileData->exploded == false) advance(missileData)` of
`run`, with a bound `fuel` on the number of turns.  Between two calls of
`advance` the other threads may change the screen: `others i` is what they do
to it after the call number `i` (the identity when nobody else writes).  The
result is the final screen, the final missile and the number of calls of
`advance` made; `none` when the fuel runs out before the loop ends. -/
def runLoop (g : Globals) (others : Nat → Board → Board) :
    Nat → Nat → Board → Missile → Option (Board × Missile × Nat)
  | 0, calls, b, m => if m.exploded = false then none else some (b, m, calls)
  | fuel + 1, calls, b, m =>
    if m.exploded = false then
      runLoop g others fuel (calls + 1) (others calls (advance g b m).1) (advance g b m).2
    else some (b, m, calls)

/-- The function `run`: the loop of the missile thread from its first turn
(the sleeps before and between the steps change no value). -/
def run (g : Globals) (others : Nat → Board → Board) (fuel : Nat) (b : Board)
    (m : Missile) : Option (Board × Missile × Nat) :=
  runLoop g others fuel 0 b m

/-! ## Sample inputs -/

/-- A screen of 22 rows and 80 columns with every cell blank. -/
def blankBoard : Board := { rows := 22, cols := 80, cells := fun _ _ => ' ' }

/-- The set-up `main` makes on a screen of 22 rows for a city of 40 columns whose
tallest building has height 5: ground at row 20, shield at row 13. -/
def sampleGlobals : Globals := initThreads 20 5 40 "Earth" false

/-- A terminal of 8 rows and 80 columns on which `main` has drawn the city
`1 1`: the building top `_` at (7, 1), in the last screen row, and the ground
line `_` in row 6 from column 1 on. -/
def lowBoard : Board :=
  mvaddch { rows := 8, cols := 80, cells := fun r c => if r = 6 ∧ 1 ≤ c then '_' else ' ' }
    7 1 '_'

/-- The set-up `main` makes for the city `1 1` on a screen of 8 rows (with one
missile): ground at row 6, the row at which `createMissile` starts a missile. -/
def lowGlobals : Globals := (mainSetup 8 1 2 1 "Earth").1

/-- A falling missile at the given row, in column 3. -/
def missileAt (row : Int) : Missile :=
  { height := row, column := 3, graphic := '|', delay := 0, exploded := false }

/-! ## Basic facts about the screen operations -/

/-- A write keeps the number of rows. -/
theorem mvaddch_rows (b : Board) (y x : Int) (ch : Char) : (mvaddch b y x ch).rows = b.rows := by
  unfold mvaddch
  split_ifs <;> rfl

/-- A write keeps the number of columns. -/
theorem mvaddch_cols (b : Board) (y x : Int) (ch : Char) : (mvaddch b y x ch).cols = b.cols := by
  unfold mvaddch
  split_ifs <;> rfl

/-- A write keeps the window. -/
theorem inWindow_mvaddch (b : Board) (y x r c : Int) (ch : Char) :
    (mvaddch b y x ch).inWindow r c = b.inWindow r c := by
  simp [Board.inWindow, mvaddch_rows, mvaddch_cols]

/-- Reading after a write: the glyph written, when the read is at the written
cell and that cell is inside the window; otherwise what was there before. -/
theorem mvinch_mvaddch (b : Board) (y x r c : Int) (ch : Char) :
    mvinch (mvaddch b y x ch) r c
      = if (r = y ∧ c = x) ∧ b.inWindow y x = true then ch else mvinch b r c := by
  unfold mvinch
  rw [inWindow_mvaddch]
  unfold mvaddch
  by_cases hw : b.inWindow y x = true
  · by_cases hrc : r = y ∧ c = x
    · obtain ⟨rfl, rfl⟩ := hrc
      simp [hw]
    · simp [hw, hrc]
  · simp [hw]

/-- A cell that reads as a glyph other than the error value is inside the window. -/
theorem inWindow_of_mvinch (b : Board) (y x : Int) (ch : Char)
    (h : mvinch b y x = ch) (hne : ch ≠ errGlyph) : b.inWindow y x = true := by
  by_contra hw
  apply hne
  rw [← h]
  simp [mvinch, hw]

/-- Erasing the missile does not change the cell below it: the glyph `advance`
reads is the glyph the screen held there before the step. -/
theorem next_after_erase (b : Board) (m : Missile) :
    mvinch (eraseMissile b m) (m.height + 1) m.column = mvinch b (m.height + 1) m.column := by
  simp [eraseMissile, mvinch_mvaddch]

/-! ## The missile step: one theorem per cell content -/

/-- C1 as stated fails: on a terminal of 8 rows with the city `1 1` the building
top `_` is at (7, 1), in the last screen row, and the ground is row 6.  The
fresh missile at (6, 1) is not exploded and has `_` below it; one `advance`
leaves it at row 7, exploded, with the explosion mark in (7, 1), but the write
of the secondary mark at (8, 1) is refused: no cell (R+2, c) holds `*`. -/
theorem advance_building_hit_last_row :
    (createMissile 1 0).exploded = false ∧
    mvinch lowBoard ((createMissile 1 0).height + 1) (createMissile 1 0).column = '_' ∧
    (advance lowGlobals lowBoard (createMissile 1 0)).2.height = 7 ∧
    (advance lowGlobals lowBoard (createMissile 1 0)).2.exploded = true ∧
    mvinch (advance lowGlobals lowBoard (createMissile 1 0)).1 7 1 = '?' ∧
    mvinch (advance lowGlobals lowBoard (createMissile 1 0)).1
      ((createMissile 1 0).height + 2) (createMissile 1 0).column ≠ '*' ∧
    (advance lowGlobals lowBoard (createMissile 1 0)).1.cells
      ((createMissile 1 0).height + 2) (createMissile 1 0).column ≠ '*' := by
  decide

/-- C1 (amended, building hit): if the cell below the missile, (R+1, c), holds
the wall glyph or the building-top glyph, one `advance` leaves the missile at
row R+1 in the same column with `exploded` set and the explosion mark in
(R+1, c); the secondary mark is in (R+2, c) whenever row R+2 is on the screen.
This holds for every missile, exploded or not. -/
theorem advance_building_hit (g : Globals) (b : Board) (m : Missile)
    (hcell : mvinch b (m.height + 1) m.column = '|' ∨ mvinch b (m.height + 1) m.column = '_') :
    (advance g b m).2.height = m.height + 1 ∧
    (advance g b m).2.column = m.column ∧
    (advance g b m).2.exploded = true ∧
    mvinch (advance g b m).1 (m.height + 1) m.column = '?' ∧
    (m.height + 2 < b.rows → mvinch (advance g b m).1 (m.height + 2) m.column = '*') := by
  have hnext : mvinch b (m.height + 1) m.column = '_' ∨ mvinch b (m.height + 1) m.column = '|' :=
    hcell.symm
  have hw : b.inWindow (m.height + 1) m.column = true := by
    rcases hcell with h | h
    · exact inWindow_of_mvinch b _ _ _ h (by decide)
    · exact inWindow_of_mvinch b _ _ _ h (by decide)
  have hw1 : (eraseMissile b m).inWindow (m.height + 1) m.column = true := by
    rw [eraseMissile, inWindow_mvaddch]; exact hw
  have hw2 : m.height + 2 < b.rows → (eraseMissile b m).inWindow (m.height + 2) m.column = true := by
    intro hrow
    rw [eraseMissile, inWindow_mvaddch]
    simp only [Board.inWindow, decide_eq_true_eq] at hw ⊢
    omega
  simp only [advance, next_after_erase, resolve, if_pos hnext]
  have h2 : m.height + 1 + 1 = m.height + 2 := by omega
  by_cases hg : m.height + 1 ≥ g.ground
  · refine ⟨?_, ?_, ?_, ?_, ?_⟩
    · simp [explode, hg]
    · simp [explode, hg]
    · simp [explode, hg]
    · simp [explode, hg, mvinch_mvaddch, inWindow_mvaddch, hw1]
    · intro hrow
      simp [explode, hg, mvinch_mvaddch, inWindow_mvaddch, hw2 hrow, h2]
  · refine ⟨?_, ?_, ?_, ?_, ?_⟩
    · simp [explode, hg]
    · simp [explode, hg]
    · simp [explode, hg]
    · simp [explode, hg, mvinch_mvaddch, inWindow_mvaddch, hw1]
    · intro hrow
      simp [explode, hg, mvinch_mvaddch, inWindow_mvaddch, hw2 hrow, h2]

/-- Witness for C1 (amended): a wall glyph at (7, 3) below a fresh missile at
row 6, on a screen of 22 rows. -/
theorem advance_building_hit_witness :
    (mvinch (mvaddch blankBoard 7 3 '|') ((missileAt 6).height + 1) (missileAt 6).column = '|' ∨
      mvinch (mvaddch blankBoard 7 3 '|') ((missileAt 6).height + 1) (missileAt 6).column = '_') ∧
    (advance sampleGlobals (mvaddch blankBoard 7 3 '|') (missileAt 6)).2.height = 7 ∧
    (advance sampleGlobals (mvaddch blankBoard 7 3 '|') (missileAt 6)).2.exploded = true ∧
    mvinch (advance sampleGlobals (mvaddch blankBoard 7 3 '|') (missileAt 6)).1 7 3 = '?' ∧
    mvinch (advance sampleGlobals (mvaddch blankBoard 7 3 '|') (missileAt 6)).1 8 3 = '*' := by
  have h := advance_building_hit sampleGlobals (mvaddch blankBoard 7 3 '|') (missileAt 6)
    (Or.inl (by decide))
  exact ⟨Or.inl (by decide), h.1, h.2.2.1, h.2.2.2.1, h.2.2.2.2 (by decide)⟩

/-- C2 as stated fails: with the ground at row 20 and the shield at row 13, a
missile at row 18 above an explosion mark at row 19 = groundRow - 1 does not
stop at row 19; it passes through and ends at row 20. -/
theorem advance_residue_above_ground_passes :
    (missileAt 18).exploded = false ∧
    mvinch (mvaddch blankBoard 19 3 '?') ((missileAt 18).height + 1) (missileAt 18).column
      = '?' ∧
    (missileAt 18).height + 1 = sampleGlobals.ground - 1 ∧
    (advance sampleGlobals (mvaddch blankBoard 19 3 '?') (missileAt 18)).2.height = 20 ∧
    (advance sampleGlobals (mvaddch blankBoard 19 3 '?') (missileAt 18)).2.height
      ≠ (missileAt 18).height + 1 := by
  decide

/-- C2 (amended): if the cell (R+1, c) holds the explosion mark and its row R+1
equals defenderRow - 1 or groundRow (the row where a ground hit leaves its
mark), one `advance` leaves the missile at row R+1, one row down and not two,
in the same column, with `exploded` set. -/
theorem advance_terminal_residue (g : Globals) (b : Board) (m : Missile)
    (hcell : mvinch b (m.height + 1) m.column = '?')
    (hrow : m.height + 1 = g.height - 1 ∨ m.height + 1 = g.ground) :
    (advance g b m).2.height = m.height + 1 ∧
    (advance g b m).2.height ≠ m.height + 2 ∧
    (advance g b m).2.column = m.column ∧
    (advance g b m).2.exploded = true := by
  have hc : m.height + 2 = g.height ∨ m.height + 1 = g.ground := by omega
  simp only [advance, next_after_erase, resolve, hcell]
  by_cases hg : m.height + 1 ≥ g.ground
  · simp [explode, hg, hc]
  · simp [explode, hg, hc]

/-- Witness for C2 (amended): marks at row 12 (above the shield at row 13) and
at row 20 (the ground row). -/
theorem advance_terminal_residue_witness :
    (advance sampleGlobals (mvaddch blankBoard 12 3 '?') (missileAt 11)).2.height = 12 ∧
    (advance sampleGlobals (mvaddch blankBoard 12 3 '?') (missileAt 11)).2.exploded = true ∧
    (advance sampleGlobals (mvaddch blankBoard 20 3 '?') (missileAt 19)).2.height = 20 ∧
    (advance sampleGlobals (mvaddch blankBoard 20 3 '?') (missileAt 19)).2.exploded = true := by
  have h1 := advance_terminal_residue sampleGlobals (mvaddch blankBoard 12 3 '?') (missileAt 11)
    (by decide) (Or.inl (by decide))
  have h2 := advance_terminal_residue sampleGlobals (mvaddch blankBoard 20 3 '?') (missileAt 19)
    (by decide) (Or.inr (by decide))
  exact ⟨h1.1, h1.2.2.2, h2.1, h2.2.2.2⟩

/-- C3 as stated fails: with the ground at row 20 and the shield at row 13, an
explosion mark at row 20 is neither at defenderRow - 1 = 12 nor at
groundRow - 1 = 19, yet the missile at row 19 above it advances one row only,
to row 20, and not to row 21. -/
theorem advance_residue_on_ground_stops :
    (missileAt 19).exploded = false ∧
    mvinch (mvaddch blankBoard 20 3 '?') ((missileAt 19).height + 1) (missileAt 19).column
      = '?' ∧
    (missileAt 19).height + 1 ≠ sampleGlobals.height - 1 ∧
    (missileAt 19).height + 1 ≠ sampleGlobals.ground - 1 ∧
    (advance sampleGlobals (mvaddch blankBoard 20 3 '?') (missileAt 19)).2.height = 20 ∧
    (advance sampleGlobals (mvaddch blankBoard 20 3 '?') (missileAt 19)).2.height
      ≠ (missileAt 19).height + 2 := by
  decide

/-- C3 (amended): if the cell (R+1, c) holds the explosion mark and its row R+1
is neither defenderRow - 1 nor groundRow, one `advance` leaves the missile at
row R+2 in the same column with `exploded` set, and the cell (R+1, c) it passed
through is blank; the explosion mark is in (R+2, c) whenever row R+2 is on the
screen. -/
theorem advance_building_residue (g : Globals) (b : Board) (m : Missile)
    (hcell : mvinch b (m.height + 1) m.column = '?')
    (hshield : m.height + 1 ≠ g.height - 1) (hground : m.height + 1 ≠ g.ground) :
    (advance g b m).2.height = m.height + 2 ∧
    (advance g b m).2.column = m.column ∧
    (advance g b m).2.exploded = true ∧
    mvinch (advance g b m).1 (m.height + 1) m.column = ' ' ∧
    (m.height + 2 < b.rows → mvinch (advance g b m).1 (m.height + 2) m.column = '?') := by
  have hc : ¬ (m.height + 2 = g.height ∨ m.height + 1 = g.ground) := by omega
  have h2 : m.height + 1 + 1 = m.height + 2 := by omega
  have hw : b.inWindow (m.height + 1) m.column = true :=
    inWindow_of_mvinch b _ _ _ hcell (by decide)
  have hw1 : (eraseMissile b m).inWindow (m.height + 1) m.column = true := by
    rw [eraseMissile, inWindow_mvaddch]; exact hw
  have hw2 : m.height + 2 < b.rows → (eraseMissile b m).inWindow (m.height + 2) m.column = true := by
    intro hrow
    rw [eraseMissile, inWindow_mvaddch]
    simp only [Board.inWindow, decide_eq_true_eq] at hw ⊢
    omega
  simp only [advance, next_after_erase, resolve, hcell]
  by_cases hg : m.height + 2 ≥ g.ground
  · refine ⟨?_, ?_, ?_, ?_, ?_⟩
    · simp [explode, hg, hc, h2]
    · simp [explode, hg, hc, h2]
    · simp [explode, hg, hc, h2]
    · simp [explode, eraseMissile, hg, hc, h2, mvinch_mvaddch, inWindow_mvaddch, hw] at hw1 ⊢
    · intro hrow
      have hin := hw2 hrow
      rw [eraseMissile, inWindow_mvaddch] at hin
      simp [explode, eraseMissile, hg, hc, h2, mvinch_mvaddch, inWindow_mvaddch, hin]
  · refine ⟨?_, ?_, ?_, ?_, ?_⟩
    · simp [explode, hg, hc, h2]
    · simp [explode, hg, hc, h2]
    · simp [explode, hg, hc, h2]
    · simp [explode, eraseMissile, hg, hc, h2, mvinch_mvaddch, inWindow_mvaddch, hw] at hw1 ⊢
    · intro hrow
      have hin := hw2 hrow
      rw [eraseMissile, inWindow_mvaddch] at hin
      simp [explode, eraseMissile, hg, hc, h2, mvinch_mvaddch, inWindow_mvaddch, hin]

/-- Witness for C3 (amended): an explosion mark at row 10 below a missile at row 9. -/
theorem advance_building_residue_witness :
    (advance sampleGlobals (mvaddch blankBoard 10 3 '?') (missileAt 9)).2.height = 11 ∧
    (advance sampleGlobals (mvaddch blankBoard 10 3 '?') (missileAt 9)).2.exploded = true ∧
    mvinch (advance sampleGlobals (mvaddch blankBoard 10 3 '?') (missileAt 9)).1 10 3 = ' ' ∧
    mvinch (advance sampleGlobals (mvaddch blankBoard 10 3 '?') (missileAt 9)).1 11 3 = '?' := by
  have h := advance_building_residue sampleGlobals (mvaddch blankBoard 10 3 '?') (missileAt 9)
    (by decide) (by decide) (by decide)
  exact ⟨h.1, h.2.2.1, h.2.2.2.1, h.2.2.2.2 (by decide)⟩

/-- C4 (shield hit): if the cell (R+1, c) holds the defender glyph, one
`advance` leaves the missile at row R and column c with `exploded` set; the
secondary mark is in (R+1, c), and the explosion mark is in (R, c) whenever
row R is on the screen. -/
theorem advance_shield_hit (g : Globals) (b : Board) (m : Missile)
    (hcell : mvinch b (m.height + 1) m.column = '#') :
    (advance g b m).2.height = m.height ∧
    (advance g b m).2.column = m.column ∧
    (advance g b m).2.exploded = true ∧
    mvinch (advance g b m).1 (m.height + 1) m.column = '*' ∧
    (0 ≤ m.height → mvinch (advance g b m).1 m.height m.column = '?') := by
  have hw : b.inWindow (m.height + 1) m.column = true :=
    inWindow_of_mvinch b _ _ _ hcell (by decide)
  have hw0 : 0 ≤ m.height → b.inWindow m.height m.column = true := by
    intro hrow
    simp only [Board.inWindow, decide_eq_true_eq] at hw ⊢
    omega
  simp only [advance, next_after_erase, resolve, hcell]
  by_cases hg : m.height ≥ g.ground
  · refine ⟨?_, ?_, ?_, ?_, ?_⟩
    · simp [explode, hg]
    · simp [explode, hg]
    · simp [explode, hg]
    · simp [explode, eraseMissile, hg, mvinch_mvaddch, inWindow_mvaddch, hw]
    · intro hrow
      simp [explode, eraseMissile, hg, mvinch_mvaddch, inWindow_mvaddch, hw0 hrow]
  · refine ⟨?_, ?_, ?_, ?_, ?_⟩
    · simp [explode, hg]
    · simp [explode, hg]
    · simp [explode, hg]
    · simp [explode, eraseMissile, hg, mvinch_mvaddch, inWindow_mvaddch, hw]
    · intro hrow
      simp [explode, eraseMissile, hg, mvinch_mvaddch, inWindow_mvaddch, hw0 hrow]

/-- Witness for C4: the shield glyph at (13, 3) below a missile at row 12. -/
theorem advance_shield_hit_witness :
    (advance sampleGlobals (mvaddch blankBoard 13 3 '#') (missileAt 12)).2.height = 12 ∧
    (advance sampleGlobals (mvaddch blankBoard 13 3 '#') (missileAt 12)).2.column = 3 ∧
    (advance sampleGlobals (mvaddch blankBoard 13 3 '#') (missileAt 12)).2.exploded = true ∧
    mvinch (advance sampleGlobals (mvaddch blankBoard 13 3 '#') (missileAt 12)).1 13 3 = '*' ∧
    mvinch (advance sampleGlobals (mvaddch blankBoard 13 3 '#') (missileAt 12)).1 12 3 = '?' := by
  have h := advance_shield_hit sampleGlobals (mvaddch blankBoard 13 3 '#') (missileAt 12)
    (by decide)
  exact ⟨h.1, h.2.1, h.2.2.1, h.2.2.2.1, h.2.2.2.2 (by decide)⟩

/-- C5 (free fall and ground impact): if the missile is not exploded and the
cell (R+1, c) is blank, one `advance` leaves it at row R+1 in the same column;
when R+1 < groundRow it is still not exploded and its glyph is in (R+1, c);
when R+1 >= groundRow it is exploded. -/
theorem advance_free_fall (g : Globals) (b : Board) (m : Missile)
    (hm : m.exploded = false) (hcell : mvinch b (m.height + 1) m.column = ' ') :
    (advance g b m).2.height = m.height + 1 ∧
    (advance g b m).2.column = m.column ∧
    (m.height + 1 < g.ground →
      (advance g b m).2.exploded = false ∧
      mvinch (advance g b m).1 (m.height + 1) m.column = m.graphic) ∧
    (g.ground ≤ m.height + 1 → (advance g b m).2.exploded = true) := by
  have hw : b.inWindow (m.height + 1) m.column = true :=
    inWindow_of_mvinch b _ _ _ hcell (by decide)
  simp only [advance, next_after_erase, resolve, hcell]
  by_cases hg : m.height + 1 ≥ g.ground
  · have hlt : ¬ m.height + 1 < g.ground := by omega
    simp [explode, hg, hlt]
  · have hlt : m.height + 1 < g.ground := by omega
    simp [drawMissile, eraseMissile, mvinch_mvaddch, inWindow_mvaddch, hw, hg, hlt, hm]

/-- Witness for C5: a fresh missile at row 6 over a blank cell falls to row 7;
a missile at row 19 over a blank ground row explodes at row 20. -/
theorem advance_free_fall_witness :
    (advance sampleGlobals blankBoard (missileAt 6)).2.height = 7 ∧
    (advance sampleGlobals blankBoard (missileAt 6)).2.exploded = false ∧
    mvinch (advance sampleGlobals blankBoard (missileAt 6)).1 7 3 = '|' ∧
    (advance sampleGlobals blankBoard (missileAt 19)).2.height = 20 ∧
    (advance sampleGlobals blankBoard (missileAt 19)).2.exploded = true := by
  have h1 := advance_free_fall sampleGlobals blankBoard (missileAt 6) (by decide) (by decide)
  have h2 := advance_free_fall sampleGlobals blankBoard (missileAt 19) (by decide) (by decide)
  exact ⟨h1.1, (h1.2.2.1 (by decide)).1, (h1.2.2.1 (by decide)).2, h2.1,
    h2.2.2.2 (by decide)⟩

/-! ## The missile step: outcome of any step -/

/-- The row and the flag after the branch of `advance`, whatever the glyph read. -/
theorem resolve_outcome (g : Globals) (b : Board) (m : Missile) (next : Char) :
    (resolve g b m next).2.column = m.column ∧
    (((resolve g b m next).2.height = m.height ∧ (resolve g b m next).2.exploded = true) ∨
     ((resolve g b m next).2.height = m.height + 1 ∧
        ((resolve g b m next).2.exploded = true ∨
          (resolve g b m next).2.exploded = m.exploded)) ∨
     ((resolve g b m next).2.height = m.height + 2 ∧
        (resolve g b m next).2.exploded = true)) := by
  have h2 : m.height + 1 + 1 = m.height + 2 := by omega
  unfold resolve
  split_ifs <;> simp [explode, h2]

/-- The ground check and the redraw of `advance` keep row and column and can
only set the flag. -/
theorem advance_eq_resolve (g : Globals) (b : Board) (m : Missile) :
    (advance g b m).2.height
      = (resolve g (eraseMissile b m) m (mvinch b (m.height + 1) m.column)).2.height ∧
    (advance g b m).2.column
      = (resolve g (eraseMissile b m) m (mvinch b (m.height + 1) m.column)).2.column ∧
    ((resolve g (eraseMissile b m) m (mvinch b (m.height + 1) m.column)).2.exploded = true →
      (advance g b m).2.exploded = true) ∧
    ((advance g b m).2.exploded = true ∨
      (advance g b m).2.exploded
        = (resolve g (eraseMissile b m) m (mvinch b (m.height + 1) m.column)).2.exploded) := by
  simp only [advance, next_after_erase]
  split_ifs <;> simp_all [explode]

/-- C6 (step outcome): one `advance` leaves the column unchanged and changes the
row by exactly 0, 1 or 2, so the row never decreases; when the row changed by 0
or by 2 the missile is exploded afterwards; exactly one of the four outcomes
(advanced one row without exploding, advanced two rows and exploded, exploded
in place, exploded after advancing one row) occurred. -/
theorem advance_outcome (g : Globals) (b : Board) (m : Missile) :
    (advance g b m).2.column = m.column ∧
    m.height ≤ (advance g b m).2.height ∧
    ((advance g b m).2.height = m.height ∨ (advance g b m).2.height = m.height + 1 ∨
      (advance g b m).2.height = m.height + 2) ∧
    ((advance g b m).2.height = m.height ∨ (advance g b m).2.height = m.height + 2 →
      (advance g b m).2.exploded = true) ∧
    List.count true
      [decide ((advance g b m).2.height = m.height + 1 ∧ (advance g b m).2.exploded = false),
       decide ((advance g b m).2.height = m.height + 2 ∧ (advance g b m).2.exploded = true),
       decide ((advance g b m).2.height = m.height ∧ (advance g b m).2.exploded = true),
       decide ((advance g b m).2.height = m.height + 1 ∧ (advance g b m).2.exploded = true)]
      = 1 := by
  obtain ⟨hh, hc, he, _⟩ := advance_eq_resolve g b m
  obtain ⟨rc, rh⟩ := resolve_outcome g (eraseMissile b m) m (mvinch b (m.height + 1) m.column)
  rw [hh, hc]
  refine ⟨rc, ?_, ?_, ?_, ?_⟩
  · rcases rh with h | h | h <;> omega
  · rcases rh with h | h | h
    · exact Or.inl h.1
    · exact Or.inr (Or.inl h.1)
    · exact Or.inr (Or.inr h.1)
  · intro hrow
    rcases rh with h | h | h
    · exact he h.2
    · omega
    · exact he h.2
  · rcases rh with h | h | h
    · have e := he h.2
      simp [h.1, e]
    · cases hx : (advance g b m).2.exploded <;> simp [h.1]
    · have e := he h.2
      simp [h.1, e]

/-- Witness for C6: a free-fall step (one row, not exploded) and a step through
a building-hit mark (two rows, exploded). -/
theorem advance_outcome_witness :
    (advance sampleGlobals blankBoard (missileAt 6)).2.column = 3 ∧
    (missileAt 6).height ≤ (advance sampleGlobals blankBoard (missileAt 6)).2.height ∧
    (advance sampleGlobals (mvaddch blankBoard 10 3 '?') (missileAt 9)).2.column = 3 := by
  have h1 := advance_outcome sampleGlobals blankBoard (missileAt 6)
  have h2 := advance_outcome sampleGlobals (mvaddch blankBoard 10 3 '?') (missileAt 9)
  exact ⟨h1.1, h1.2.1, h2.1⟩

/-! ## The shield stays on the field -/

/-- A move of the shield changes no dimension of the field. -/
theorem advanceShield_columns (g : Globals) (b : Board) (s : Shield) (left : Bool) :
    (advanceShield g b s left).1.columns = g.columns := by
  simp [advanceShield]

/-- A move of the shield keeps its row. -/
theorem advanceShield_row (g : Globals) (b : Board) (s : Shield) (left : Bool) :
    (advanceShield g b s left).2.2.row = s.row := by
  simp only [advanceShield]
  split_ifs <;> rfl

/-- A move of a shield that is on the field leaves it on the field. -/
theorem advanceShield_bounds (g : Globals) (b : Board) (s : Shield) (left : Bool)
    (h0 : 0 ≤ s.column) (h1 : s.column ≤ g.columns) :
    0 ≤ (advanceShield g b s left).2.2.column ∧
    (advanceShield g b s left).2.2.column ≤ g.columns := by
  simp only [advanceShield]
  split_ifs <;> constructor <;> dsimp only <;> omega

/-- Any sequence of moves keeps the shield on the field and in its row. -/
theorem runMoves_invariant (moves : List Bool) :
    ∀ (g : Globals) (b : Board) (s : Shield), 0 ≤ s.column → s.column ≤ g.columns →
      (runMoves g b s moves).1.columns = g.columns ∧
      0 ≤ (runMoves g b s moves).2.2.column ∧
      (runMoves g b s moves).2.2.column ≤ g.columns ∧
      (runMoves g b s moves).2.2.row = s.row := by
  induction moves with
  | nil => intro g b s h0 h1; exact ⟨rfl, h0, h1, rfl⟩
  | cons left rest ih =>
    intro g b s h0 h1
    have hb := advanceShield_bounds g b s left h0 h1
    have hc := advanceShield_columns g b s left
    have hr := advanceShield_row g b s left
    have step := ih (advanceShield g b s left).1 (advanceShield g b s left).2.1
      (advanceShield g b s left).2.2 hb.1 (by rw [hc]; exact hb.2)
    simp only [runMoves]
    rw [hc, hr] at step
    exact step

/-- Moves to the left from column 0 stay at column 0, however many. -/
theorem runMoves_left_at_zero (n : Nat) :
    ∀ (g : Globals) (b : Board) (s : Shield), s.column = 0 →
      (runMoves g b s (List.replicate n true)).2.2.column = 0 := by
  induction n with
  | zero => intro g b s h; exact h
  | succ n ih =>
    intro g b s h
    simp only [List.replicate, runMoves]
    apply ih
    simp [advanceShield, h]

/-- C7 (defender bounds): for a defender whose column is in [0, maxColumn] and
every finite sequence of move-left / move-right events applied through
`advanceShield`, after every event (every initial part of the sequence) the
column is in [0, maxColumn] and the row is the initial row; a move-left at
column 0 leaves the column at 0, also 1000 times in a row, and a move-right at
column maxColumn leaves it at maxColumn. -/
theorem shield_stays_in_bounds (g : Globals) (b : Board) (s : Shield) (moves : List Bool)
    (k : Nat) (h0 : 0 ≤ s.column) (h1 : s.column ≤ g.columns) :
    (0 ≤ (runMoves g b s (moves.take k)).2.2.column ∧
      (runMoves g b s (moves.take k)).2.2.column ≤ g.columns ∧
      (runMoves g b s (moves.take k)).2.2.row = s.row) ∧
    (advanceShield g b { s with column := 0 } true).2.2.column = 0 ∧
    (advanceShield g b { s with column := 0 } true).2.2.row = s.row ∧
    (advanceShield g b { s with column := g.columns } false).2.2.column = g.columns ∧
    (advanceShield g b { s with column := g.columns } false).2.2.row = s.row ∧
    (runMoves g b { s with column := 0 } (List.replicate 1000 true)).2.2.column = 0 := by
  have inv := runMoves_invariant (moves.take k) g b s h0 h1
  refine ⟨⟨inv.2.1, inv.2.2.1, inv.2.2.2⟩, ?_, ?_, ?_, ?_, ?_⟩
  · simp [advanceShield]
  · rw [advanceShield_row]
  · simp [advanceShield]
  · rw [advanceShield_row]
  · exact runMoves_left_at_zero 1000 g b _ rfl

/-- Witness for C7: the shield of a 40-column field created at column 23, after
the events left, right, right. -/
theorem shield_stays_in_bounds_witness :
    (0 : Int) ≤ (createShield sampleGlobals 23).column ∧
    (createShield sampleGlobals 23).column ≤ sampleGlobals.columns ∧
    (runMoves sampleGlobals blankBoard (createShield sampleGlobals 23)
      (List.take 3 [true, false, false])).2.2.column ≤ sampleGlobals.columns := by
  have h := shield_stays_in_bounds sampleGlobals blankBoard (createShield sampleGlobals 23)
    [true, false, false] 3 (by decide) (by decide)
  exact ⟨by decide, by decide, h.1.2.1⟩

/-! ## Reuse of missiles -/

/-- With at least one column `resetMissile` returns a missile that is not
exploded, at the starting row of `createMissile`, with the same glyph and
delay, in a column of [1, columns]. -/
theorem resetMissile_in_range (g : Globals) (m : Missile) (r : Int)
    (hcols : 0 < g.columns) (hr : 0 ≤ r) :
    ∃ m1, resetMissile g m r = some m1 ∧ m1.exploded = false ∧
      m1.height = (createMissile m.column m.delay).height ∧ m1.height = 6 ∧
      m1.graphic = m.graphic ∧ m1.delay = m.delay ∧
      1 ≤ m1.column ∧ m1.column ≤ g.columns := by
  have hne : g.columns ≠ 0 := by omega
  have h1 : 0 ≤ Int.tmod r g.columns := Int.tmod_nonneg _ hr
  have h2 : Int.tmod r g.columns < g.columns := Int.tmod_lt_of_pos _ hcols
  refine ⟨{ m with height := 6, column := Int.tmod r g.columns + 1, exploded := false },
    by simp [resetMissile, hne], rfl, rfl, rfl, rfl, rfl, ?_, ?_⟩
  · show 1 ≤ Int.tmod r g.columns + 1
    omega
  · show Int.tmod r g.columns + 1 ≤ g.columns
    omega

/-- With at least one column `restartAttack` resets the whole pool: it returns
as many missiles as it was given, none exploded, all at row 6 and in a column
of [1, columns]. -/
theorem restartAttack_in_range (g : Globals) (hcols : 0 < g.columns) (pool : List Missile) :
    ∀ rand : Nat → Int, (∀ i, 0 ≤ rand i) →
      ∃ pool1, restartAttack g rand pool = some pool1 ∧ pool1.length = pool.length ∧
        ∀ m1 ∈ pool1, m1.exploded = false ∧ m1.height = 6 ∧
          1 ≤ m1.column ∧ m1.column ≤ g.columns := by
  induction pool with
  | nil => intro rand _; exact ⟨[], rfl, rfl, by simp⟩
  | cons m rest ih =>
    intro rand hrand
    obtain ⟨m1, hm1, he, _, hh, _, _, hlo, hhi⟩ := resetMissile_in_range g m (rand 0) hcols (hrand 0)
    obtain ⟨rest1, hrest, hlen, hall⟩ := ih (fun i => rand (i + 1)) (fun i => hrand (i + 1))
    refine ⟨m1 :: rest1, by simp [restartAttack, hm1, hrest], by simp [hlen], ?_⟩
    intro x hx
    rcases List.mem_cons.mp hx with h | h
    · subst h; exact ⟨he, hh, hlo, hhi⟩
    · exact hall x h

/-- C8 at the failing input: a configuration without city layout and with
missile count 0 makes `main` call `initThreads` with `maxColumn = 0`; then
`resetMissile` divides by zero for every missile and every value of `rand()`,
and so does `restartAttack` on every non-empty pool: no missile is returned. -/
theorem resetMissile_zero_columns (maxHeight tallestBuilding : Int) (d : String)
    (m : Missile) (r : Int) (rand : Nat → Int) (pool : List Missile) :
    (mainSetup maxHeight tallestBuilding 0 0 d).1.columns = 0 ∧
    resetMissile (mainSetup maxHeight tallestBuilding 0 0 d).1 m r = none ∧
    restartAttack (mainSetup maxHeight tallestBuilding 0 0 d).1 rand (m :: pool) = none := by
  have hcols : (mainSetup maxHeight tallestBuilding 0 0 d).1.columns = 0 := by
    simp [mainSetup, initThreads]
  have hreset : ∀ r1, resetMissile (mainSetup maxHeight tallestBuilding 0 0 d).1 m r1 = none := by
    intro r1
    simp [resetMissile, hcols]
  refine ⟨hcols, hreset r, ?_⟩
  simp only [restartAttack, hreset]

/-! ## Lock discipline -/

/-- Replaying two sequences in a row. -/
theorem audit_append (xs ys : List Op) :
    ∀ st : Bool × Nat, audit st (xs ++ ys) = (audit st xs).bind (fun st1 => audit st1 ys) := by
  induction xs with
  | nil => intro st; rfl
  | cons op rest ih =>
    intro st
    simp only [List.cons_append, audit]
    cases auditStep st op with
    | none => rfl
    | some st1 => exact ih st1

/-- While no runner exists the screen may be written without the lock. -/
theorem audit_writes_alone (n : Nat) :
    audit (false, 0) (List.replicate n Op.write) = some (false, 0) := by
  induction n with
  | zero => rfl
  | succ n ih => simpa [List.replicate, audit, auditStep, Op.onBoard] using ih

/-- Creating `n` threads adds `n` runners. -/
theorem audit_creates (n : Nat) :
    ∀ k : Nat, audit (false, k) (List.replicate n Op.create) = some (false, k + n) := by
  induction n with
  | zero => intro k; rfl
  | succ n ih =>
    intro k
    simp only [List.replicate, audit, auditStep, ih]
    congr 2
    omega

/-- Joining `n` threads removes `n` runners. -/
theorem audit_joins (n : Nat) :
    ∀ k : Nat, audit (false, k + n) (List.replicate n Op.join) = some (false, k) := by
  induction n with
  | zero => intro k; rfl
  | succ n ih =>
    intro k
    simp only [List.replicate, audit, auditStep]
    exact ih k

/-- Every turn of the input loop of `runShield` keeps the discipline and ends
with the lock released. -/
theorem audit_keys (keys : List Int) :
    audit (false, 1) (keys.flatMap keyOps) = some (false, 1) := by
  induction keys with
  | nil => rfl
  | cons ch rest ih =>
    rw [List.flatMap_cons, audit_append]
    have h : audit (false, 1) (keyOps ch) = some (false, 1) := by
      unfold keyOps
      split_ifs <;> rfl
    rw [h]
    exact ih

/-- The missile step performs all its screen operations under the lock. -/
theorem audit_advance (g : Globals) (b : Board) (m : Missile) :
    audit (false, 1) (advanceOps g b m) = some (false, 1) := by
  simp only [advanceOps, resolveOps, explodeOps]
  split_ifs <;> rfl

/-- Up to the last `pthread_join` of a missile thread `main` keeps the
discipline; the shield thread is then the one runner left. -/
theorem audit_main_until_joined (cityWrites n : Nat) :
    audit (false, 0)
      (List.replicate cityWrites Op.write ++ [Op.commit, Op.input] ++ [Op.create]
        ++ List.replicate n Op.create ++ List.replicate n Op.join) = some (false, 1) := by
  have h1 : audit (false, 0) (List.replicate cityWrites Op.write ++ [Op.commit, Op.input]
      ++ [Op.create]) = some (false, 1) := by
    rw [audit_append, audit_append, audit_writes_alone]
    rfl
  rw [audit_append, audit_append, h1]
  show (audit (false, 1) (List.replicate n Op.create)).bind _ = _
  rw [audit_creates n 1]
  exact audit_joins n 1

/-- C9 at the failing input: the missile step and the shield move keep the lock
discipline, but `main` does not, and neither does the end of `runShield`.
After joining the missile threads of a finite attack `main` prints the closing
message and calls `refresh` without taking the lock although the shield thread
is still running (it cannot leave its loop before `endGame`, which `main`
calls afterwards); `runShield` prints its two closing messages after the
input loop without taking the lock. -/
theorem lock_discipline_violated (g : Globals) (b : Board) (m : Missile)
    (keys drain : List Int) (cityWrites missileCount : Nat) :
    audit (false, 1) (advanceOps g b m) = some (false, 1) ∧
    audit (false, 1) advanceShieldOps = some (false, 1) ∧
    audit (false, 0) (mainOps cityWrites (missileCount + 1)) = none ∧
    audit (false, 1) (runShieldOps keys drain) = none := by
  refine ⟨audit_advance g b m, rfl, ?_, ?_⟩
  · unfold mainOps
    rw [audit_append, audit_main_until_joined]
    rfl
  · unfold runShieldOps
    rw [audit_append, audit_append, audit_append]
    have h : audit (false, 1) [Op.lock, Op.write, Op.write, Op.commit, Op.unlock]
        = some (false, 1) := rfl
    rw [h]
    show (((audit (false, 1) (keys.flatMap keyOps)).bind _).bind _) = none
    rw [audit_keys]
    rfl

/-! ## Initial placement of the shield -/

/-- C10 at the failing input: for a city of 4 columns `main` sets `columns` to 4
and creates the shield at column 4 / 2 + 3 = 5, outside [0, 4].  In general the
initial column n / 2 + 3 is at most `columns = n` exactly when n >= 5; it is
never negative. -/
theorem initial_shield_column (maxHeight tallestBuilding : Int) (missileCount : Nat)
    (d : String) :
    (mainSetup maxHeight tallestBuilding 4 missileCount d).1.columns = 4 ∧
    (mainSetup maxHeight tallestBuilding 4 missileCount d).2.column = 5 ∧
    ¬ ((mainSetup maxHeight tallestBuilding 4 missileCount d).2.column
        ≤ (mainSetup maxHeight tallestBuilding 4 missileCount d).1.columns) ∧
    ∀ n : Nat,
      0 ≤ (mainSetup maxHeight tallestBuilding n missileCount d).2.column ∧
      ((mainSetup maxHeight tallestBuilding n missileCount d).2.column
          ≤ (mainSetup maxHeight tallestBuilding n missileCount d).1.columns ↔ 5 ≤ n) := by
  refine ⟨rfl, rfl, ?_, ?_⟩
  · show ¬ ((5 : Int) ≤ 4)
    decide
  intro n
  simp only [mainSetup, initThreads, createShield]
  constructor
  · omega
  · constructor
    · intro h; omega
    · intro h; omega

/-! ## The missile thread terminates -/

/-- A step that leaves the missile not exploded moved it one row down, to a row
above the ground. -/
theorem advance_not_exploded (g : Globals) (b : Board) (m : Missile)
    (h : (advance g b m).2.exploded = false) :
    (advance g b m).2.height = m.height + 1 ∧ m.height + 1 < g.ground := by
  have hstep : (advance g b m).2.height = m.height + 1 := by
    obtain ⟨_, _, hrow, hzero, _⟩ := advance_outcome g b m
    rcases hrow with h0 | h1 | h2
    · have := hzero (Or.inl h0); simp_all
    · exact h1
    · have := hzero (Or.inr h2); simp_all
  refine ⟨hstep, ?_⟩
  by_contra hge
  have hres : (resolve g (eraseMissile b m) m (mvinch b (m.height + 1) m.column)).2.height
      = m.height + 1 := by
    rw [← (advance_eq_resolve g b m).1]; exact hstep
  have hground : (resolve g (eraseMissile b m) m (mvinch b (m.height + 1) m.column)).2.height
      ≥ g.ground := by omega
  have : (advance g b m).2.exploded = true := by
    simp only [advance, next_after_erase, if_pos hground]
    simp [explode]
  simp_all

/-- On an exploded missile the loop makes no call. -/
theorem runLoop_exploded (g : Globals) (others : Nat → Board → Board) (fuel calls : Nat)
    (b : Board) (m : Missile) (h : m.exploded = true) :
    runLoop g others fuel calls b m = some (b, m, calls) := by
  cases fuel <;> simp [runLoop, h]

/-- From any turn of the loop on: a missile that is not exploded at row r is
exploded after at least one and at most max(1, groundRow - r) further calls of
`advance`, given that much fuel, whatever the other threads do to the screen. -/
theorem runLoop_terminates (g : Globals) (others : Nat → Board → Board) (fuel : Nat) :
    ∀ (calls : Nat) (b : Board) (m : Missile), m.exploded = false →
      max 1 (g.ground - m.height) ≤ (fuel : Int) →
      ∃ b1 m1 n, runLoop g others fuel calls b m = some (b1, m1, n) ∧
        m1.exploded = true ∧ calls + 1 ≤ n ∧
        (n : Int) ≤ calls + max 1 (g.ground - m.height) := by
  induction fuel with
  | zero =>
    intro calls b m _ hfuel
    have : (1 : Int) ≤ max 1 (g.ground - m.height) := le_max_left _ _
    omega
  | succ fuel ih =>
    intro calls b m hm hfuel
    simp only [runLoop, hm, if_true]
    cases hx : (advance g b m).2.exploded with
    | true =>
      refine ⟨others calls (advance g b m).1, (advance g b m).2, calls + 1,
        runLoop_exploded g others fuel (calls + 1) _ _ hx, hx, le_refl _, ?_⟩
      have : (1 : Int) ≤ max 1 (g.ground - m.height) := le_max_left _ _
      push_cast
      omega
    | false =>
      obtain ⟨hrow, hlt⟩ := advance_not_exploded g b m hx
      have hmax : max 1 (g.ground - m.height) = g.ground - m.height := max_eq_right (by omega)
      have hmax1 : max 1 (g.ground - (advance g b m).2.height) = g.ground - m.height - 1 := by
        rw [hrow]
        have : max 1 (g.ground - (m.height + 1)) = g.ground - (m.height + 1) :=
          max_eq_right (by omega)
        omega
      rw [hmax] at hfuel
      obtain ⟨b1, m1, n, hrun, he, hlo, hhi⟩ :=
        ih (calls + 1) (others calls (advance g b m).1) (advance g b m).2 hx
          (by rw [hmax1]; push_cast at hfuel; omega)
      refine ⟨b1, m1, n, hrun, he, by omega, ?_⟩
      rw [hmax1] at hhi
      rw [hmax]
      push_cast at hhi
      omega

/-- C11 (the missile thread terminates): for every groundRow and defenderRow,
every missile that is not exploded at row r, every initial screen and every
change the other threads make to the screen between the steps, the loop of
`run` ends: with fuel for max(1, groundRow - r) turns it returns an exploded
missile after n calls of `advance`, 1 <= n <= max(1, groundRow - r).  The same
holds when the screens presented to the successive steps are any sequence
`boards`. -/
theorem run_terminates (g : Globals) (others : Nat → Board → Board) (boards : Nat → Board)
    (fuel : Nat) (b : Board) (m : Missile) (hm : m.exploded = false)
    (hfuel : max 1 (g.ground - m.height) ≤ (fuel : Int)) :
    (∃ b1 m1 n, run g others fuel b m = some (b1, m1, n) ∧ m1.exploded = true ∧
      1 ≤ n ∧ (n : Int) ≤ max 1 (g.ground - m.height)) ∧
    (∃ b1 m1 n, run g (fun i _ => boards (i + 1)) fuel (boards 0) m = some (b1, m1, n) ∧
      m1.exploded = true ∧ 1 ≤ n ∧ (n : Int) ≤ max 1 (g.ground - m.height)) := by
  constructor
  · obtain ⟨b1, m1, n, hrun, he, hlo, hhi⟩ := runLoop_terminates g others fuel 0 b m hm hfuel
    exact ⟨b1, m1, n, hrun, he, by omega, by push_cast at hhi; omega⟩
  · obtain ⟨b1, m1, n, hrun, he, hlo, hhi⟩ :=
      runLoop_terminates g (fun i _ => boards (i + 1)) fuel 0 (boards 0) m hm hfuel
    exact ⟨b1, m1, n, hrun, he, by omega, by push_cast at hhi; omega⟩

/-- Witness for C11: a fresh missile at row 6 over a blank screen, ground at row
20, nobody else writing: the loop ends within max(1, 20 - 6) = 14 calls. -/
theorem run_terminates_witness :
    (missileAt 6).exploded = false ∧
    max 1 (sampleGlobals.ground - (missileAt 6).height) ≤ ((14 : Nat) : Int) ∧
    ∃ b1 m1 n, run sampleGlobals (fun _ b => b) 14 blankBoard (missileAt 6) = some (b1, m1, n) ∧
      m1.exploded = true ∧ 1 ≤ n ∧ (n : Int) ≤ max 1 (sampleGlobals.ground - (missileAt 6).height) :=
  ⟨by decide, by decide,
    (run_terminates sampleGlobals (fun _ b => b) (fun _ => blankBoard) 14 blankBoard
      (missileAt 6) (by decide) (by decide)).1⟩

/-- In free fall over a blank screen the bound is reached: from row 6 to the
ground at row 20 the loop makes exactly 14 calls, and 13 turns do not suffice. -/
theorem run_free_fall_calls :
    (run sampleGlobals (fun _ b => b) 14 blankBoard (missileAt 6)).map
        (fun r => (r.2.1.height, r.2.1.exploded, r.2.2)) = some (20, true, 14) ∧
    (run sampleGlobals (fun _ b => b) 13 blankBoard (missileAt 6)).isNone = true := by
  decide

end Threads
